import Mathlib

/-!
Verification of the delayed prequential evaluation scheduler
(src/skmultiflow/evaluation/evaluate_prequential_delayed.py).

The embedding models the evaluator state and the functions
`_sort_delay_queue`, `_get_delayed_samples`, `_update_classifiers`,
`_update_metrics_delayed`, `_predict_samples`, `_update_delayed_queue`
and the `_train_and_test` driver.  Per-sample features, labels and
timestamps are abstracted to integers; models, the stream and the metric
accumulators are the external collaborators of the spec and are modelled
by their call contracts (a model records the batches passed to
`partial_fit` and answers `predict` through an oracle function; a metric
accumulator records the pairs passed to `add_result`).  Wall-clock time
is abstracted by a boolean oracle indexed by the iteration number.
Ghost fields (sample ids, an event trace, iteration and snapshot
counters) instrument the run for the temporal statements; they never
influence control flow.
-/

namespace SkMF

/-- One row of the `delay_queue` DataFrame, columns
`["X", "y_real", "y_pred", "arrival_time", "available_time"]`
(`self._delayed_columns`).  `y_pred` holds one prediction per tracked
model (the row is sample-major, produced by the transpose in
`_predict_samples`).  `sid` is a ghost sample identifier (the sample's
position in the stream) used only to state temporal claims. -/
structure Record where
  sid : Nat
  X : Int
  y_real : Int
  y_pred : List Int
  arrival_time : Int
  available_time : Int
deriving Repr, DecidableEq

/-- One sample as supplied by the temporal stream's `next_sample`:
features, arrival timestamp, availability timestamp and true label
(the optional weight column is destructured but unused by the scheduler).
`sid` is the ghost stream position. -/
structure Sample where
  sid : Nat
  X : Int
  arrival_time : Int
  available_time : Int
  y : Int
deriving Repr, DecidableEq

/-- Exceptions that the embedded collaborators can raise. -/
inductive Exc where
  | indexError
  | typeError (modelName : String)
  | fitError (modelName : String)
  | otherError (msg : String)
deriving Repr, DecidableEq

/-- Outcome of a model's `predict` call: a valid per-sample sequence,
an output that is not a sequence (so `prediction[i].extend(...)` raises
`TypeError`), or an exception raised inside `predict` itself. -/
inductive PredOutcome where
  | valid (ys : List Int)
  | notSequence
  | raises (e : Exc)
deriving Repr, DecidableEq

/-- A model under evaluation.  `predictFn` is the inference oracle,
`fitOutcome` decides whether a `partial_fit` call raises, and `history`
records the batches actually passed to `partial_fit` (the classes /
sample-weight arguments are collaborator details that do not affect the
scheduler and are not recorded). -/
structure Model where
  name : String
  predictFn : List Int → PredOutcome
  fitOutcome : List Int → List Int → Option Exc
  history : List (List Int × List Int)

/-- Ghost events recording the temporal order of collaborator calls. -/
inductive Event where
  | pretrainFit (sids : List Nat)
  | trained (iter : Nat) (sids : List Nat)
  | predicted (iter : Nat) (sids : List Nat)
deriving Repr, DecidableEq

/-- `skmultiflow.utils.constants.DATA_POINTS`. -/
def DATA_POINTS : String := "data_points"

/-- Configuration surface of the evaluator that the scheduler reads.
`max_time` is wall-clock and is abstracted by the `timeOk` oracle of the
driver instead. -/
structure Config where
  n_wait : Nat
  max_samples : Nat
  batch_size : Nat
  pretrain_size : Nat
  metrics : List String
  restart_stream : Bool

/-- Mutable evaluator state threaded through `_train_and_test`.
`mean_results` / `current_results` record, per model, the pairs passed to
the cumulative / windowed metric accumulators' `add_result`.
`snapshots` counts the `_update_metrics()` calls, `iterIdx` the RUNNING
iterations entered, `trace` the ghost event trace and `terminalError`
the exception (if any) that broke the RUNNING loop. -/
structure LoopState where
  stream : List Sample
  delay_queue : List Record
  current_timestamp : Int
  global_sample_count : Nat
  update_count : Nat
  first_run : Bool
  models : List Model
  mean_results : List (List (Int × Int))
  current_results : List (List (Int × Int))
  snapshots : Nat
  iterIdx : Nat
  trace : List Event
  terminalError : Option Exc

/-- `actual_max_samples` (lines 367-369): the stream's
`n_remaining_samples()` unless it is `-1` or larger than `max_samples`. -/
def actual_max_samples (n_remaining : Int) (max_samples : Nat) : Nat :=
  if n_remaining = -1 ∨ n_remaining > (max_samples : Int) then max_samples
  else n_remaining.toNat

/-- Key order used by `_sort_delay_queue` (`sort_values(by='available_time')`). -/
def availLE (a b : Record) : Prop := a.available_time ≤ b.available_time

instance : DecidableRel availLE := fun a b => Int.decLe a.available_time b.available_time

instance : IsTotal Record availLE := ⟨fun a b => Int.le_total a.available_time b.available_time⟩

instance : IsTrans Record availLE := ⟨fun _ _ _ h h' => Int.le_trans h h'⟩

/-- Documented contract of `DataFrame.sort_values(by='available_time')`:
the result is a permutation of the rows ordered by the key.  The default
`kind='quicksort'` gives no stability pledge for equal keys (pandas
documents `mergesort` as the only stable choice), so nothing beyond this
contract may be assumed of `_sort_delay_queue`. -/
def PandasSortSpec (sortFn : List Record → List Record) : Prop :=
  ∀ q, (sortFn q).Perm q ∧ (sortFn q).Sorted availLE

/-- A concrete sort obeying `PandasSortSpec`, used to instantiate runs. -/
def sortRecords : List Record → List Record := List.insertionSort availLE

/-- The rows with an available label, `delayed_samples` in
`_get_delayed_samples` (line 268). -/
def delayed_samples (q : List Record) (t : Int) : List Record :=
  q.filter fun r => r.available_time ≤ t

/-- `_get_delayed_samples` (lines 266-274): split the queue at the
current timestamp, keep the still-delayed rows, and return the feature,
true-label and (transposed back to model-major) prediction columns of
the released rows. -/
def _get_delayed_samples (q : List Record) (t : Int) :
    (List Int × List Int × List (List Int)) × List Record :=
  let ds := delayed_samples q t
  let new_queue := q.filter fun r => r.available_time > t
  ((ds.map fun r => r.X, ds.map fun r => r.y_real,
    (ds.map fun r => r.y_pred).transpose), new_queue)

/-- The `for i in range(self.n_models)` loop of `_update_classifiers`:
each model's `partial_fit` receives the batch in turn; an exception from
model `i` leaves models `0..i-1` already fitted (Python mutates in
place) and aborts the loop.  The `first_run` branch only selects the
`classes` argument, a collaborator detail not recorded in `history`. -/
def fitModels (models : List Model) (X : List Int) (y : List Int) :
    List Model × Option Exc :=
  match models with
  | [] => ([], none)
  | m :: rest =>
    match m.fitOutcome X y with
    | some e => (m :: rest, some e)
    | none =>
      let m' : Model := { m with history := m.history ++ [(X, y)] }
      let r := fitModels rest X y
      (m' :: r.1, r.2)

/-- `_update_classifiers` (lines 276-302): train every model on the
released samples when there are any.  `sids` is the ghost list of the
released sample ids, used only for the trace event. -/
def _update_classifiers (st : LoopState) (X : List Int) (y : List Int)
    (sids : List Nat) : LoopState × Option Exc :=
  if 0 < X.length then
    let r := fitModels st.models X y
    ({ st with models := r.1, first_run := false,
               trace := st.trace ++ [Event.trained st.iterIdx sids] }, r.2)
  else (st, none)

/-- The trigger condition of `_update_metrics_delayed` (lines 312-314):
`(gsc % n_wait) == 0 or gsc >= max_samples or gsc / n_wait > update_count + 1`.
Python's true division by the positive integer `n_wait` is cleared to a
multiplication (`gsc / n_wait > u + 1` iff `gsc > n_wait * (u + 1)`);
configuration validation requires `n_wait > 0`. -/
def metricsUpdateCond (cfg : Config) (gsc update_count : Nat) : Bool :=
  (gsc % cfg.n_wait == 0) || (cfg.max_samples ≤ gsc)
    || (cfg.n_wait * (update_count + 1) < gsc)

/-- `_update_metrics_delayed` (lines 304-317): when released predictions
exist, feed every (true, predicted) pair to both accumulators of every
model, then snapshot (`_update_metrics`) and bump `update_count` when the
cadence condition fires.  (`y_pred_delayed` is model-major here; the
inner check `if y_pred_delayed is not None` is vacuously true for a
list and is dropped.  `_check_progress` only prints.) -/
def _update_metrics_delayed (cfg : Config) (st : LoopState)
    (y_real_delayed : List Int) (y_pred_delayed : List (List Int)) : LoopState :=
  if 0 < y_pred_delayed.length then
    let st1 : LoopState :=
      { st with
        mean_results := List.zipWith (fun acc row => acc ++ y_real_delayed.zip row)
          st.mean_results y_pred_delayed,
        current_results := List.zipWith (fun acc row => acc ++ y_real_delayed.zip row)
          st.current_results y_pred_delayed }
    if metricsUpdateCond cfg st1.global_sample_count st1.update_count then
      { st1 with snapshots := st1.snapshots + 1, update_count := st1.update_count + 1 }
    else st1
  else st

/-- Decide whether a `predict` outcome is a valid per-sample sequence. -/
def isValidPred : PredOutcome → Bool
  | PredOutcome.valid _ => true
  | _ => false

/-- The per-model `predict` loop of `_predict_samples` (lines 322-331):
a `TypeError` (from `extend` on a non-sequence output, or raised inside
`predict`) is re-raised as `TypeError` naming the offending model; other
exceptions propagate unchanged. -/
def predictAll (models : List Model) (X : List Int) :
    Except Exc (List (List Int)) :=
  match models with
  | [] => Except.ok []
  | m :: rest =>
    match m.predictFn X with
    | PredOutcome.valid ys =>
      match predictAll rest X with
      | Except.ok tail => Except.ok (ys :: tail)
      | Except.error e => Except.error e
    | PredOutcome.notSequence => Except.error (Exc.typeError m.name)
    | PredOutcome.raises e =>
      match e with
      | Exc.typeError _ => Except.error (Exc.typeError m.name)
      | e' => Except.error e'

/-- `_predict_samples` (lines 319-336): predict the new batch with every
model, advance `global_sample_count` by `batch_size`, and return the
prediction matrix transposed to sample-major.  `sids` is the ghost id
list of the batch for the trace event. -/
def _predict_samples (cfg : Config) (st : LoopState) (X : List Int)
    (sids : List Nat) : Except Exc (LoopState × List (List Int)) :=
  match predictAll st.models X with
  | Except.error e => Except.error e
  | Except.ok prediction =>
    Except.ok
      ({ st with global_sample_count := st.global_sample_count + cfg.batch_size,
                 trace := st.trace ++ [Event.predicted st.iterIdx sids] },
       prediction.transpose)

/-- `_update_delayed_queue` (lines 338-344): zip the new batch with its
predictions into fresh rows, append them to the queue and re-sort
(`_sort_delay_queue`, parametrised here by `sortFn`).  Python's `zip`
truncates to the shortest column exactly as `List.zipWith` does. -/
def _update_delayed_queue (sortFn : List Record → List Record) (st : LoopState)
    (batch : List Sample) (y_pred : List (List Int)) : LoopState :=
  let delay_frame := List.zipWith
    (fun (s : Sample) (p : List Int) =>
      { sid := s.sid, X := s.X, y_real := s.y, y_pred := p,
        arrival_time := s.arrival_time, available_time := s.available_time : Record })
    batch y_pred
  { st with delay_queue := sortFn (st.delay_queue ++ delay_frame) }

/-- One RUNNING iteration, the `try` body of lines 423-453: pull a
batch, advance the watermark to the batch's last arrival time
(`IndexError` if the batch is empty), drain the queue, feed the
accumulators, train on the released samples, predict the new batch and
enqueue it.  Returns the state reached together with the exception that
aborted the body, if any (Python keeps the mutations made before the
raise; the ghost `iterIdx` counts completed iterations). -/
def iterate (cfg : Config) (sortFn : List Record → List Record) (st : LoopState) :
    LoopState × Option Exc :=
  let batch := st.stream.take cfg.batch_size
  let st1 : LoopState := { st with stream := st.stream.drop cfg.batch_size }
  match (batch.map fun s => s.arrival_time).getLast? with
  | none => (st1, some Exc.indexError)
  | some t =>
    let st2 : LoopState := { st1 with current_timestamp := t }
    let res := _get_delayed_samples st2.delay_queue t
    let drained := delayed_samples st2.delay_queue t
    let st3 : LoopState := { st2 with delay_queue := res.2 }
    let st4 := _update_metrics_delayed cfg st3 res.1.2.1 res.1.2.2
    let fr := _update_classifiers st4 res.1.1 res.1.2.1 (drained.map fun r => r.sid)
    match fr.2 with
    | some e => (fr.1, some e)
    | none =>
      match _predict_samples cfg fr.1 (batch.map fun s => s.X) (batch.map fun s => s.sid) with
      | Except.error e => (fr.1, some e)
      | Except.ok pr =>
        let st7 := _update_delayed_queue sortFn pr.1 batch pr.2
        ({ st7 with iterIdx := st7.iterIdx + 1 }, none)

/-- Guard of the `while` loop (lines 420-422):
`gsc < actual_max_samples  &  elapsed < max_time  &  has_more_samples()`.
Elapsed wall-clock time is abstracted by the oracle `timeOk`, indexed by
the number of completed iterations (`_end_time` is refreshed at the end
of each successful iteration). -/
def loopGuard (actualMax : Nat) (timeOk : Nat → Bool) (st : LoopState) : Bool :=
  decide (st.global_sample_count < actualMax) && timeOk st.iterIdx && !st.stream.isEmpty

/-- The RUNNING loop (lines 420-458): iterate while the guard holds; any
exception from the body is caught (`except BaseException`), printed and
recorded, and the loop breaks.  (`exc is KeyboardInterrupt` compares an
instance with a class and is always false, so the interrupt-only
`_update_metrics()` call is dead code.)  `fuel` bounds the recursion;
every iteration consumes at least one stream sample or breaks, so the
driver's fuel of `stream.length + 1` never cuts a run short. -/
def runLoop (cfg : Config) (sortFn : List Record → List Record) (actualMax : Nat)
    (timeOk : Nat → Bool) : Nat → LoopState → LoopState
  | 0, st => st
  | fuel + 1, st =>
    if loopGuard actualMax timeOk st then
      match iterate cfg sortFn st with
      | (st', none) => runLoop cfg sortFn actualMax timeOk fuel st'
      | (st', some e) => { st' with terminalError := some e }
    else st

/-- The PRETRAIN phase (lines 371-416): pull `pretrain_size` samples,
train every model on them (exceptions here are outside the loop's `try`
and propagate out of `_train_and_test`), advance the counters, set the
watermark to the last pretrain arrival time (`IndexError` on an empty
block) and create the empty, sorted delay queue. -/
def pretrainPhase (cfg : Config) (sortFn : List Record → List Record)
    (st0 : LoopState) : Except Exc LoopState :=
  if 0 < cfg.pretrain_size then
    let batch := st0.stream.take cfg.pretrain_size
    let st1 : LoopState := { st0 with stream := st0.stream.drop cfg.pretrain_size }
    let r := fitModels st1.models (batch.map fun s => s.X) (batch.map fun s => s.y)
    match r.2 with
    | some e => Except.error e
    | none =>
      match (batch.map fun s => s.arrival_time).getLast? with
      | none => Except.error Exc.indexError
      | some t =>
        Except.ok
          { st1 with
            models := r.1,
            global_sample_count := st1.global_sample_count + cfg.pretrain_size,
            first_run := false,
            current_timestamp := t,
            delay_queue := sortFn [],
            trace := st1.trace ++ [Event.pretrainFit (batch.map fun s => s.sid)] }
  else Except.ok st0

/-- The `while` drop loop of the DRAINING phase (lines 466-471): while
`shape[0] > 0 and shape[0] - batch_size > 0`, drop the first
`batch_size` rows (the `samples` slice is taken but never processed —
the body is a TODO).  `fuel` (instantiated with the queue length) bounds
the recursion. -/
def drainFlushLoop (batch_size : Nat) : Nat → List Record → List Record
  | 0, q => q
  | fuel + 1, q =>
    if 0 < q.length ∧ 0 < (q.length : Int) - (batch_size : Int) then
      drainFlushLoop batch_size fuel (q.drop batch_size)
    else q

/-- The DRAINING phase (lines 460-475): if rows remain in the queue,
re-sort them and drop them in chunks of `batch_size`; the final partial
chunk is only inspected (`pass`).  No model or metric call is made. -/
def drainingPhase (cfg : Config) (sortFn : List Record → List Record)
    (st : LoopState) : LoopState :=
  if 0 < st.delay_queue.length then
    let q := sortFn st.delay_queue
    { st with delay_queue := drainFlushLoop cfg.batch_size q.length q }
  else st

/-- Observable outcome of a `_train_and_test` run. -/
structure RunOutput where
  models : List Model
  final : LoopState
  fileFlushed : Bool
  summaryEmitted : Bool
  streamRestarted : Bool
  terminalError : Option Exc

/-- The DONE phase (lines 477-488): flush the file buffer, emit the
summary unless the tracked metrics are only `DATA_POINTS`
(`len(set(metrics).difference(DATA_POINTS)) > 0`), restart the stream if
configured and return the trained models. -/
def finishRun (cfg : Config) (sortFn : List Record → List Record)
    (st : LoopState) : RunOutput :=
  let st' := drainingPhase cfg sortFn st
  { models := st'.models,
    final := st',
    fileFlushed := true,
    summaryEmitted := cfg.metrics.any fun m => m != DATA_POINTS,
    streamRestarted := cfg.restart_stream,
    terminalError := st'.terminalError }

/-- `_train_and_test` (lines 346-488): compute `actual_max_samples` from
the stream, pretrain (exceptions propagate), run the RUNNING loop and
finalize.  The loop fuel `stream.length + 1` is enough for any run,
since each iteration either consumes a sample or breaks. -/
def trainAndTest (cfg : Config) (sortFn : List Record → List Record)
    (timeOk : Nat → Bool) (st0 : LoopState) : Except Exc RunOutput :=
  let actualMax := actual_max_samples (st0.stream.length : Int) cfg.max_samples
  match pretrainPhase cfg sortFn st0 with
  | Except.error e => Except.error e
  | Except.ok st =>
    Except.ok (finishRun cfg sortFn
      (runLoop cfg sortFn actualMax timeOk (st.stream.length + 1) st))

/-- Fresh evaluator state (`_reset_globals` / `_init_evaluation`). -/
def initState (models : List Model) (stream : List Sample) : LoopState :=
  { stream := stream, delay_queue := [], current_timestamp := 0,
    global_sample_count := 0, update_count := 0, first_run := true,
    models := models,
    mean_results := models.map fun _ => [],
    current_results := models.map fun _ => [],
    snapshots := 0, iterIdx := 0, trace := [], terminalError := none }

/-- The `metrics` argument of `__init__`: `None`, a Python list (a
reference into the heap below), or any other value. -/
inductive MetricsArg where
  | nothing
  | list (r : Nat)
  | invalid

/-- A heap of Python list objects, to make aliasing observable:
`cells` maps a reference to the list it holds, `next` is the next fresh
reference. -/
structure Heap where
  cells : Nat → List String
  next : Nat

/-- In-place mutation of the list object behind reference `r`. -/
def Heap.write (h : Heap) (r : Nat) (v : List String) : Heap :=
  { h with cells := fun r' => if r' = r then v else h.cells r' }

/-- Allocation of a fresh list object. -/
def Heap.alloc (h : Heap) (v : List String) : Nat × Heap :=
  (h.next,
   { cells := fun r' => if r' = h.next then v else h.cells r', next := h.next + 1 })

/-- `__init__` lines 207-216, the `data_points_for_classification=True`
branch: with `metrics=None` a fresh list `[DATA_POINTS]` is created;
with a list, the same object is stored (`self.metrics = metrics`) and
`DATA_POINTS` is appended to it in place; any other value raises
`ValueError`.  Returns the reference stored in `self.metrics` and the
resulting heap. -/
def initMetricsDataPoints (metrics : MetricsArg) (h : Heap) :
    Except String (Nat × Heap) :=
  match metrics with
  | MetricsArg.nothing => Except.ok (h.alloc [DATA_POINTS])
  | MetricsArg.list r => Except.ok (r, h.write r (h.cells r ++ [DATA_POINTS]))
  | MetricsArg.invalid => Except.error "Attribute metrics must be None or list"

/-- Sample `sid` was predicted at an iteration earlier than `k`
according to trace `tr`. -/
def TracePredictedBefore (tr : List Event) (k : Nat) (sid : Nat) : Prop :=
  ∃ j sids, j < k ∧ Event.predicted j sids ∈ tr ∧ sid ∈ sids

/-- No label leakage in a trace: every sample a model is trained on in
iteration `k` had its prediction recorded in an earlier iteration. -/
def NoLeakTrace (tr : List Event) : Prop :=
  ∀ k sids, Event.trained k sids ∈ tr → ∀ sid ∈ sids, TracePredictedBefore tr k sid

/-- Queue invariant: every queued record was predicted in an iteration
earlier than the next one to run. -/
def QueuePredicted (st : LoopState) : Prop :=
  ∀ r ∈ st.delay_queue, TracePredictedBefore st.trace st.iterIdx r.sid

/-- Ghost trace of a finished run (empty when the run raised during
pretraining, before the RUNNING loop existed). -/
def traceOfRun (res : Except Exc RunOutput) : List Event :=
  match res with
  | Except.ok out => out.final.trace
  | Except.error _ => []

/-- Final `global_sample_count` of a finished run. -/
def finalGscOfRun (res : Except Exc RunOutput) : Option Nat :=
  match res with
  | Except.ok out => some out.final.global_sample_count
  | Except.error _ => none

/-- A model whose collaborator calls always succeed. -/
def okModel : Model :=
  { name := "ok", predictFn := fun X => PredOutcome.valid (X.map fun _ => 0),
    fitOutcome := fun _ _ => none, history := [] }

/-- A model whose `predict` returns a non-sequence value. -/
def badPredictModel : Model :=
  { name := "bad", predictFn := fun _ => PredOutcome.notSequence,
    fitOutcome := fun _ _ => none, history := [] }

/-- A small stream: sample `i` arrives at time `i` with its label
available at time `i + 2`. -/
def demoStream : List Sample :=
  (List.range 6).map fun i =>
    { sid := i, X := (i : Int), arrival_time := (i : Int),
      available_time := (i : Int) + 2, y := (i : Int) }

/-- Configuration with a pretraining block larger than the sample
budget: `pretrain_size = 5` but `max_samples = 2`. -/
def cexConfig : Config :=
  { n_wait := 2, max_samples := 2, batch_size := 1, pretrain_size := 5,
    metrics := ["accuracy"], restart_stream := true }

/-- An ordinary configuration for run witnesses. -/
def demoConfig : Config :=
  { n_wait := 2, max_samples := 4, batch_size := 1, pretrain_size := 2,
    metrics := ["accuracy"], restart_stream := true }

/-- Tied records for the stable-sort analysis: enqueued first... -/
def recA : Record :=
  { sid := 0, X := 0, y_real := 0, y_pred := [0], arrival_time := 0,
    available_time := 5 }

/-- ...and second, with the same `available_time`. -/
def recB : Record :=
  { sid := 1, X := 1, y_real := 1, y_pred := [1], arrival_time := 1,
    available_time := 5 }

/-- A sort function meeting `PandasSortSpec` that nevertheless swaps the
tied pair `[recA, recB]`. -/
def swapTieSort (q : List Record) : List Record :=
  if q = [recA, recB] then [recB, recA] else sortRecords q

/-- A concrete heap for the constructor witness. -/
def h0 : Heap := { cells := fun _ => ["accuracy"], next := 7 }

/-- The stream sample that `_update_delayed_queue` turns into `recA`. -/
def sampleA : Sample :=
  { sid := 0, X := 0, arrival_time := 0, available_time := 5, y := 0 }

/-- The stream sample that `_update_delayed_queue` turns into `recB`. -/
def sampleB : Sample :=
  { sid := 1, X := 1, arrival_time := 1, available_time := 5, y := 1 }

/-- The state reached inside a RUNNING iteration, once the watermark is
at `t` and the queue has been drained and fed to the accumulators
(stages `st1`-`st4` of `iterate`, factored out for the proofs). -/
def afterDrainState (cfg : Config) (st : LoopState) (t : Int) : LoopState :=
  let res := _get_delayed_samples st.delay_queue t
  _update_metrics_delayed cfg
    { st with stream := st.stream.drop cfg.batch_size, current_timestamp := t,
              delay_queue := res.2 }
    res.1.2.1 res.1.2.2

/-- The state/exception pair after additionally training on the
released samples (stage `fr` of `iterate`). -/
def afterTrainPair (cfg : Config) (st : LoopState) (t : Int) : LoopState × Option Exc :=
  let res := _get_delayed_samples st.delay_queue t
  _update_classifiers (afterDrainState cfg st t) res.1.1 res.1.2.1
    ((delayed_samples st.delay_queue t).map fun r => r.sid)

/-- Start state of a run whose single model breaks `predict`. -/
def errState : LoopState := initState [badPredictModel] demoStream

/-- Start state for the prediction-shape analysis: a healthy model
followed by one whose `predict` output is not a sequence. -/
def twoModelState : LoopState := initState [okModel, badPredictModel] demoStream

/-- The state produced by the PRETRAIN phase of the demo run. -/
def pretrainOutDemo : LoopState :=
  match pretrainPhase demoConfig sortRecords (initState [okModel] demoStream) with
  | Except.ok s => s
  | Except.error _ => initState [] []

-- ------------------------------------------------------------------
-- Helper lemmas
-- ------------------------------------------------------------------

lemma transpose_nil_eq : ([] : List (List Int)).transpose = [] := rfl

lemma filter_gt_eq_filter_not_le (q : List Record) (t : Int) :
    (q.filter fun r => r.available_time > t)
      = q.filter fun r => !decide (r.available_time ≤ t) := by
  apply List.filter_congr
  intro r _
  rw [← decide_not]
  exact decide_eq_decide.mpr (by omega)

lemma drainingPhase_models (cfg : Config) (sortFn : List Record → List Record)
    (st : LoopState) : (drainingPhase cfg sortFn st).models = st.models := by
  unfold drainingPhase; split <;> rfl

lemma drainingPhase_terminalError (cfg : Config) (sortFn : List Record → List Record)
    (st : LoopState) :
    (drainingPhase cfg sortFn st).terminalError = st.terminalError := by
  unfold drainingPhase; split <;> rfl

-- ------------------------------------------------------------------
-- C2: drain correctness of `_get_delayed_samples`
-- ------------------------------------------------------------------

/-- C2.  For every delay-queue state `q` and timestamp `t`,
`_get_delayed_samples` releases exactly the records with
`available_time ≤ t` (the three returned columns are their projections,
empty when none is eligible), keeps exactly the records with
`available_time > t`, releases each record at most once (released and
kept rows partition the queue), and a second call at the same `t` with
no intervening enqueue releases nothing and leaves the queue unchanged. -/
theorem C2_drain_correctness (q : List Record) (t : Int) :
    (∀ r, r ∈ delayed_samples q t ↔ r ∈ q ∧ r.available_time ≤ t)
  ∧ (∀ r, r ∈ (_get_delayed_samples q t).2 ↔ r ∈ q ∧ t < r.available_time)
  ∧ List.Perm (delayed_samples q t ++ (_get_delayed_samples q t).2) q
  ∧ (_get_delayed_samples q t).1
      = ((delayed_samples q t).map fun r => r.X,
         (delayed_samples q t).map fun r => r.y_real,
         ((delayed_samples q t).map fun r => r.y_pred).transpose)
  ∧ ((∀ r ∈ q, t < r.available_time) → (_get_delayed_samples q t).1 = ([], [], []))
  ∧ _get_delayed_samples ((_get_delayed_samples q t).2) t
      = (([], [], []), (_get_delayed_samples q t).2) := by
  refine ⟨?_, ?_, ?_, rfl, ?_, ?_⟩
  · intro r
    simp [delayed_samples, List.mem_filter]
  · intro r
    simp [_get_delayed_samples, List.mem_filter]
  · simp only [_get_delayed_samples, delayed_samples]
    rw [filter_gt_eq_filter_not_le]
    exact List.filter_append_perm (fun r => decide (r.available_time ≤ t)) q
  · intro h
    have hds : delayed_samples q t = [] := by
      apply List.filter_eq_nil_iff.mpr
      intro r hr
      have ht := h r hr
      simp only [decide_eq_true_eq]
      omega
    simp [_get_delayed_samples, hds, transpose_nil_eq]
  · have hds : (q.filter fun r => decide (t < r.available_time)).filter
        (fun r => decide (r.available_time ≤ t)) = [] := by
      apply List.filter_eq_nil_iff.mpr
      intro r hr
      have h2 := (List.mem_filter.mp hr).2
      simp only [decide_eq_true_eq] at h2 ⊢
      omega
    have hkeep : (q.filter fun r => decide (t < r.available_time)).filter
        (fun r => decide (t < r.available_time))
        = q.filter fun r => decide (t < r.available_time) :=
      List.filter_eq_self.mpr fun r hr => (List.mem_filter.mp hr).2
    simp [_get_delayed_samples, delayed_samples, hds, hkeep, transpose_nil_eq]

/-- Witness for C2 on a one-record queue whose label is available. -/
theorem C2_drain_correctness_witness :
    (∀ r, r ∈ delayed_samples [recA] 5 ↔ r ∈ [recA] ∧ r.available_time ≤ 5)
  ∧ (∀ r, r ∈ (_get_delayed_samples [recA] 5).2 ↔ r ∈ [recA] ∧ 5 < r.available_time)
  ∧ List.Perm (delayed_samples [recA] 5 ++ (_get_delayed_samples [recA] 5).2) [recA]
  ∧ (_get_delayed_samples [recA] 5).1
      = ((delayed_samples [recA] 5).map fun r => r.X,
         (delayed_samples [recA] 5).map fun r => r.y_real,
         ((delayed_samples [recA] 5).map fun r => r.y_pred).transpose)
  ∧ ((∀ r ∈ [recA], 5 < r.available_time) →
      (_get_delayed_samples [recA] 5).1 = ([], [], []))
  ∧ _get_delayed_samples ((_get_delayed_samples [recA] 5).2) 5
      = (([], [], []), (_get_delayed_samples [recA] 5).2) :=
  C2_drain_correctness [recA] 5

-- ------------------------------------------------------------------
-- C9: the DRAINING phase only touches the queue
-- ------------------------------------------------------------------

/-- C9.  Flushing the leftover records after loop exit calls neither
`partial_fit` nor `add_result`: the models, both metric-accumulator
records, the ghost event trace and the snapshot count are untouched by
the DRAINING phase — it only rewrites the delay queue. -/
theorem C9_draining_only_drops (cfg : Config) (sortFn : List Record → List Record)
    (st : LoopState) :
    (drainingPhase cfg sortFn st).models = st.models
  ∧ (drainingPhase cfg sortFn st).mean_results = st.mean_results
  ∧ (drainingPhase cfg sortFn st).current_results = st.current_results
  ∧ (drainingPhase cfg sortFn st).trace = st.trace
  ∧ (drainingPhase cfg sortFn st).snapshots = st.snapshots
  ∧ (drainingPhase cfg sortFn st).global_sample_count = st.global_sample_count := by
  unfold drainingPhase
  split <;> exact ⟨rfl, rfl, rfl, rfl, rfl, rfl⟩

-- ------------------------------------------------------------------
-- C10: constructor aliasing of the metrics list
-- ------------------------------------------------------------------

/-- C10.  With `data_points_for_classification=True`: passing a list
stores that same object (`self.metrics = metrics`) and appends
`DATA_POINTS` to it in place, mutating the caller's list while leaving
every other heap object untouched; passing `None` allocates a fresh
list holding exactly `[DATA_POINTS]`, leaving existing objects
untouched. -/
theorem C10_metrics_list_aliased (h : Heap) (r : Nat) :
    initMetricsDataPoints (MetricsArg.list r) h
      = Except.ok (r, h.write r (h.cells r ++ [DATA_POINTS]))
  ∧ (h.write r (h.cells r ++ [DATA_POINTS])).cells r = h.cells r ++ [DATA_POINTS]
  ∧ (∀ r', r' ≠ r → (h.write r (h.cells r ++ [DATA_POINTS])).cells r' = h.cells r')
  ∧ initMetricsDataPoints MetricsArg.nothing h = Except.ok (h.alloc [DATA_POINTS])
  ∧ (h.alloc [DATA_POINTS]).1 = h.next
  ∧ (h.alloc [DATA_POINTS]).2.cells h.next = [DATA_POINTS]
  ∧ (∀ r', r' ≠ h.next → (h.alloc [DATA_POINTS]).2.cells r' = h.cells r') := by
  refine ⟨rfl, by simp [Heap.write], fun r' hne => by simp [Heap.write, hne],
    rfl, rfl, by simp [Heap.alloc], fun r' hne => by simp [Heap.alloc, hne]⟩

/-- Witness for C10 at a concrete heap and reference. -/
theorem C10_metrics_list_aliased_witness :
    initMetricsDataPoints (MetricsArg.list 3) h0
      = Except.ok (3, h0.write 3 (h0.cells 3 ++ [DATA_POINTS]))
  ∧ (h0.write 3 (h0.cells 3 ++ [DATA_POINTS])).cells 3 = h0.cells 3 ++ [DATA_POINTS]
  ∧ (∀ r', r' ≠ 3 → (h0.write 3 (h0.cells 3 ++ [DATA_POINTS])).cells r' = h0.cells r')
  ∧ initMetricsDataPoints MetricsArg.nothing h0 = Except.ok (h0.alloc [DATA_POINTS])
  ∧ (h0.alloc [DATA_POINTS]).1 = h0.next
  ∧ (h0.alloc [DATA_POINTS]).2.cells h0.next = [DATA_POINTS]
  ∧ (∀ r', r' ≠ h0.next → (h0.alloc [DATA_POINTS]).2.cells r' = h0.cells r') :=
  C10_metrics_list_aliased h0 3

-- ------------------------------------------------------------------
-- C4: windowed-metrics snapshot cadence
-- ------------------------------------------------------------------

/-- C4.  Whenever released results are fed to the accumulators
(`y_pred_delayed` nonempty), `_update_metrics_delayed` triggers a
metrics update exactly when `global_sample_count` is a multiple of
`n_wait`, or has reached `actual_max_samples`, or
`global_sample_count / n_wait` exceeds `update_count + 1`; and
`update_count` is bumped exactly when an update is triggered.  The
hypotheses record what the RUNNING loop guarantees at every call site:
the guard has just checked `global_sample_count < actual_max_samples`,
and `actual_max_samples ≤ max_samples` by construction — under them the
code's `gsc >= max_samples` disjunct and the claim's
`gsc ≥ actual_max_samples` disjunct are both mute, and the remaining
disjuncts are identical. -/
theorem C4_metrics_update_cadence (cfg : Config) (st : LoopState) (actualMax : Nat)
    (y_real_delayed : List Int) (y_pred_delayed : List (List Int))
    (hfeed : 0 < y_pred_delayed.length)
    (hmax : actualMax ≤ cfg.max_samples)
    (hguard : st.global_sample_count < actualMax) :
    ((_update_metrics_delayed cfg st y_real_delayed y_pred_delayed).snapshots
        = st.snapshots + 1
      ↔ (st.global_sample_count % cfg.n_wait = 0
          ∨ actualMax ≤ st.global_sample_count
          ∨ cfg.n_wait * (st.update_count + 1) < st.global_sample_count))
  ∧ ((_update_metrics_delayed cfg st y_real_delayed y_pred_delayed).update_count
        = st.update_count + 1
      ↔ (_update_metrics_delayed cfg st y_real_delayed y_pred_delayed).snapshots
          = st.snapshots + 1) := by
  unfold _update_metrics_delayed
  rw [if_pos hfeed]
  by_cases hc : metricsUpdateCond cfg st.global_sample_count st.update_count
  · simp only [hc, if_pos]
    unfold metricsUpdateCond at hc
    simp only [Bool.or_eq_true, beq_iff_eq, decide_eq_true_eq] at hc
    constructor
    · constructor
      · intro _
        rcases hc with (h | h) | h
        · exact Or.inl h
        · omega
        · exact Or.inr (Or.inr h)
      · intro _; trivial
    · simp
  · simp only [hc, if_neg, Bool.false_eq_true, not_false_eq_true]
    unfold metricsUpdateCond at hc
    simp only [Bool.or_eq_true, beq_iff_eq, decide_eq_true_eq, not_or] at hc
    obtain ⟨⟨hA, hB⟩, hC⟩ := hc
    constructor
    · constructor
      · intro hsnap
        exact absurd hsnap (by omega)
      · rintro (h | h | h)
        · exact absurd h hA
        · omega
        · exact absurd h hC
    · constructor
      · intro hu; omega
      · intro hs; omega

/-- Witness for C4: a state where the cadence fires because the sample
count is a multiple of `n_wait`. -/
theorem C4_metrics_update_cadence_witness :
    ((_update_metrics_delayed demoConfig
        { initState [okModel] demoStream with global_sample_count := 2 }
        [0] [[0]]).snapshots
      = (initState [okModel] demoStream).snapshots + 1
    ↔ ((2 : Nat) % demoConfig.n_wait = 0 ∨ (3 : Nat) ≤ 2
        ∨ demoConfig.n_wait * (0 + 1) < 2))
  ∧ (((_update_metrics_delayed demoConfig
        { initState [okModel] demoStream with global_sample_count := 2 }
        [0] [[0]]).update_count = 0 + 1)
      ↔ (_update_metrics_delayed demoConfig
        { initState [okModel] demoStream with global_sample_count := 2 }
        [0] [[0]]).snapshots = (initState [okModel] demoStream).snapshots + 1) :=
  C4_metrics_update_cadence demoConfig
    { initState [okModel] demoStream with global_sample_count := 2 } 3 [0] [[0]]
    (by decide) (by decide) (by decide)

-- ------------------------------------------------------------------
-- Sort-contract lemmas and C3
-- ------------------------------------------------------------------

lemma sortRecords_spec : PandasSortSpec sortRecords := fun q =>
  ⟨List.perm_insertionSort availLE q, List.sorted_insertionSort availLE q⟩

lemma sortRecords_perm : ∀ q, List.Perm (sortRecords q) q := fun q =>
  List.perm_insertionSort availLE q

lemma swapTieSort_spec : PandasSortSpec swapTieSort := by
  intro q
  unfold swapTieSort
  by_cases hq : q = [recA, recB]
  · rw [if_pos hq, hq]
    refine ⟨?_, ?_⟩
    · decide
    · decide
  · rw [if_neg hq]
    exact sortRecords_spec q

lemma swapTieSort_perm : ∀ q, List.Perm (swapTieSort q) q := fun q =>
  (swapTieSort_spec q).1

/-- C3 support.  `_sort_delay_queue` calls
`sort_values(by='available_time')` with the default non-stable
`kind='quicksort'`, so only `PandasSortSpec` may be assumed of it.  A
sort function satisfying that contract can leave the queue as
`[recB, recA]` after records `recA` then `recB` (equal
`available_time`) are enqueued by `_update_delayed_queue` into an empty
queue, and a subsequent drain then releases `recB` before `recA` —
insertion order among ties is NOT implied by the code. -/
theorem C3_sort_contract_gap :
    PandasSortSpec swapTieSort
  ∧ (_update_delayed_queue swapTieSort (initState [okModel] [])
       [sampleA, sampleB] [[0], [1]]).delay_queue = [recB, recA]
  ∧ delayed_samples ((_update_delayed_queue swapTieSort (initState [okModel] [])
       [sampleA, sampleB] [[0], [1]]).delay_queue) 5 = [recB, recA] := by
  refine ⟨swapTieSort_spec, ?_, ?_⟩ <;> decide

-- ------------------------------------------------------------------
-- Frame lemmas for the iteration stages
-- ------------------------------------------------------------------

lemma umd_frame (cfg : Config) (st : LoopState) (yr : List Int) (yp : List (List Int)) :
    (_update_metrics_delayed cfg st yr yp).trace = st.trace
  ∧ (_update_metrics_delayed cfg st yr yp).delay_queue = st.delay_queue
  ∧ (_update_metrics_delayed cfg st yr yp).models = st.models
  ∧ (_update_metrics_delayed cfg st yr yp).iterIdx = st.iterIdx
  ∧ (_update_metrics_delayed cfg st yr yp).global_sample_count = st.global_sample_count
  ∧ (_update_metrics_delayed cfg st yr yp).stream = st.stream
  ∧ (_update_metrics_delayed cfg st yr yp).current_timestamp = st.current_timestamp
  ∧ (_update_metrics_delayed cfg st yr yp).terminalError = st.terminalError
  ∧ (_update_metrics_delayed cfg st yr yp).update_count
      = (if 0 < yp.length ∧ metricsUpdateCond cfg st.global_sample_count st.update_count
         then st.update_count + 1 else st.update_count) := by
  unfold _update_metrics_delayed
  split
  · simp only []
    split
    · rename_i h1 h2
      simp [h1, h2]
    · rename_i h1 h2
      simp [h1, h2]
  · rename_i h1
    simp [h1]

lemma uc_frame (st : LoopState) (X y : List Int) (sids : List Nat) :
    (_update_classifiers st X y sids).1.trace
      = st.trace ++ (if 0 < X.length then [Event.trained st.iterIdx sids] else [])
  ∧ (_update_classifiers st X y sids).1.delay_queue = st.delay_queue
  ∧ (_update_classifiers st X y sids).1.iterIdx = st.iterIdx
  ∧ (_update_classifiers st X y sids).1.global_sample_count = st.global_sample_count
  ∧ (_update_classifiers st X y sids).1.stream = st.stream
  ∧ (_update_classifiers st X y sids).1.current_timestamp = st.current_timestamp
  ∧ (_update_classifiers st X y sids).1.terminalError = st.terminalError
  ∧ (_update_classifiers st X y sids).1.snapshots = st.snapshots
  ∧ (_update_classifiers st X y sids).1.mean_results = st.mean_results
  ∧ (_update_classifiers st X y sids).1.current_results = st.current_results := by
  unfold _update_classifiers
  split
  · rename_i h1
    simp [h1]
  · rename_i h1
    simp [h1]

lemma ps_ok (cfg : Config) (st : LoopState) (X : List Int) (sids : List Nat)
    (pred : List (List Int)) (h : predictAll st.models X = Except.ok pred) :
    _predict_samples cfg st X sids
      = Except.ok
          ({ st with global_sample_count := st.global_sample_count + cfg.batch_size,
                     trace := st.trace ++ [Event.predicted st.iterIdx sids] },
           pred.transpose) := by
  unfold _predict_samples
  rw [h]

lemma ps_err (cfg : Config) (st : LoopState) (X : List Int) (sids : List Nat)
    (e : Exc) (h : predictAll st.models X = Except.error e) :
    _predict_samples cfg st X sids = Except.error e := by
  unfold _predict_samples
  rw [h]

lemma ps_ok_inv (cfg : Config) (st : LoopState) (X : List Int) (sids : List Nat)
    (pr : LoopState × List (List Int))
    (h : _predict_samples cfg st X sids = Except.ok pr) :
    ∃ pred, predictAll st.models X = Except.ok pred ∧
      pr = ({ st with global_sample_count := st.global_sample_count + cfg.batch_size,
                      trace := st.trace ++ [Event.predicted st.iterIdx sids] },
            pred.transpose) := by
  unfold _predict_samples at h
  cases hp : predictAll st.models X with
  | error e => rw [hp] at h; cases h
  | ok pred =>
    rw [hp] at h
    exact ⟨pred, rfl, (by simpa using h.symm)⟩

lemma iterate_eq (cfg : Config) (sortFn : List Record → List Record) (st : LoopState)
    (t : Int)
    (ht : ((st.stream.take cfg.batch_size).map fun s => s.arrival_time).getLast?
      = some t) :
    iterate cfg sortFn st =
      (match (afterTrainPair cfg st t).2 with
       | some e => ((afterTrainPair cfg st t).1, some e)
       | none =>
         match _predict_samples cfg (afterTrainPair cfg st t).1
             ((st.stream.take cfg.batch_size).map fun s => s.X)
             ((st.stream.take cfg.batch_size).map fun s => s.sid) with
         | Except.error e => ((afterTrainPair cfg st t).1, some e)
         | Except.ok pr =>
           ({ _update_delayed_queue sortFn pr.1 (st.stream.take cfg.batch_size) pr.2 with
              iterIdx :=
                (_update_delayed_queue sortFn pr.1 (st.stream.take cfg.batch_size)
                  pr.2).iterIdx + 1 }, none)) := by
  unfold iterate afterTrainPair afterDrainState
  simp only []
  rw [ht]

lemma iterate_indexError (cfg : Config) (sortFn : List Record → List Record)
    (st : LoopState)
    (ht : ((st.stream.take cfg.batch_size).map fun s => s.arrival_time).getLast?
      = none) :
    iterate cfg sortFn st
      = ({ st with stream := st.stream.drop cfg.batch_size }, some Exc.indexError) := by
  unfold iterate
  simp only []
  rw [ht]

lemma afterTrain_frame (cfg : Config) (st : LoopState) (t : Int) :
    (afterTrainPair cfg st t).1.trace
      = st.trace ++ (if 0 < (delayed_samples st.delay_queue t).length
          then [Event.trained st.iterIdx
                  ((delayed_samples st.delay_queue t).map fun r => r.sid)]
          else [])
  ∧ (afterTrainPair cfg st t).1.delay_queue
      = st.delay_queue.filter (fun r => r.available_time > t)
  ∧ (afterTrainPair cfg st t).1.iterIdx = st.iterIdx
  ∧ (afterTrainPair cfg st t).1.global_sample_count = st.global_sample_count
  ∧ (afterTrainPair cfg st t).1.stream = st.stream.drop cfg.batch_size
  ∧ (afterTrainPair cfg st t).1.current_timestamp = t
  ∧ (afterTrainPair cfg st t).1.terminalError = st.terminalError := by
  unfold afterTrainPair
  have hu := uc_frame (afterDrainState cfg st t)
    (_get_delayed_samples st.delay_queue t).1.1
    (_get_delayed_samples st.delay_queue t).1.2.1
    ((delayed_samples st.delay_queue t).map fun r => r.sid)
  have hm := umd_frame cfg
    { st with stream := st.stream.drop cfg.batch_size, current_timestamp := t,
              delay_queue := (_get_delayed_samples st.delay_queue t).2 }
    (_get_delayed_samples st.delay_queue t).1.2.1
    (_get_delayed_samples st.delay_queue t).1.2.2
  have hXlen : (_get_delayed_samples st.delay_queue t).1.1.length
      = (delayed_samples st.delay_queue t).length := by
    simp [_get_delayed_samples]
  refine ⟨?_, ?_, ?_, ?_, ?_, ?_, ?_⟩
  · rw [hu.1, hXlen]
    unfold afterDrainState
    rw [hm.1, hm.2.2.2.1]
  · rw [hu.2.1]
    unfold afterDrainState
    rw [hm.2.1]
    simp [_get_delayed_samples]
  · rw [hu.2.2.1]
    unfold afterDrainState
    rw [hm.2.2.2.1]
  · rw [hu.2.2.2.1]
    unfold afterDrainState
    rw [hm.2.2.2.2.1]
  · rw [hu.2.2.2.2.1]
    unfold afterDrainState
    rw [hm.2.2.2.2.2.1]
  · rw [hu.2.2.2.2.2.1]
    unfold afterDrainState
    rw [hm.2.2.2.2.2.2.1]
  · rw [hu.2.2.2.2.2.2.1]
    unfold afterDrainState
    rw [hm.2.2.2.2.2.2.2.1]

lemma udq_frame (sortFn : List Record → List Record) (st : LoopState)
    (batch : List Sample) (y_pred : List (List Int)) :
    (_update_delayed_queue sortFn st batch y_pred).trace = st.trace
  ∧ (_update_delayed_queue sortFn st batch y_pred).iterIdx = st.iterIdx
  ∧ (_update_delayed_queue sortFn st batch y_pred).global_sample_count
      = st.global_sample_count
  ∧ (_update_delayed_queue sortFn st batch y_pred).current_timestamp
      = st.current_timestamp
  ∧ (_update_delayed_queue sortFn st batch y_pred).models = st.models
  ∧ (_update_delayed_queue sortFn st batch y_pred).delay_queue
      = sortFn (st.delay_queue ++ List.zipWith
          (fun (s : Sample) (p : List Int) =>
            { sid := s.sid, X := s.X, y_real := s.y, y_pred := p,
              arrival_time := s.arrival_time, available_time := s.available_time : Record })
          batch y_pred) := by
  exact ⟨rfl, rfl, rfl, rfl, rfl, rfl⟩

lemma mem_zipWith_ex {α β γ : Type} (f : α → β → γ) (l : List α) (l' : List β) (c : γ)
    (h : c ∈ List.zipWith f l l') : ∃ a ∈ l, ∃ b ∈ l', c = f a b := by
  induction l generalizing l' with
  | nil => simp at h
  | cons x xs ih =>
    cases l' with
    | nil => simp at h
    | cons y ys =>
      simp only [List.zipWith_cons_cons, List.mem_cons] at h
      rcases h with h | h
      · exact ⟨x, by simp, y, by simp, h⟩
      · obtain ⟨a, ha, b, hb, rfl⟩ := ih ys h
        exact ⟨a, by simp [ha], b, by simp [hb], rfl⟩

lemma TPB_mono (tr extra : List Event) (k sid : Nat) :
    TracePredictedBefore tr k sid → TracePredictedBefore (tr ++ extra) k sid := by
  rintro ⟨j, sids, hj, hmem, hsid⟩
  exact ⟨j, sids, hj, List.mem_append_left _ hmem, hsid⟩

lemma TPB_le (tr : List Event) (k k' sid : Nat) (hk : k ≤ k') :
    TracePredictedBefore tr k sid → TracePredictedBefore tr k' sid := by
  rintro ⟨j, sids, hj, hmem, hsid⟩
  exact ⟨j, sids, lt_of_lt_of_le hj hk, hmem, hsid⟩

lemma noLeak_append (tr tr' : List Event)
    (h : NoLeakTrace tr)
    (h' : ∀ k sids, Event.trained k sids ∈ tr' →
            ∀ sid ∈ sids, TracePredictedBefore tr k sid) :
    NoLeakTrace (tr ++ tr') := by
  intro k sids hmem sid hsid
  rcases List.mem_append.mp hmem with hm | hm
  · exact TPB_mono _ _ _ _ (h k sids hm sid hsid)
  · exact TPB_mono _ _ _ _ (h' k sids hm sid hsid)

lemma iterate_no_leak (cfg : Config) (sortFn : List Record → List Record)
    (st : LoopState) (hperm : ∀ q, List.Perm (sortFn q) q)
    (hInv : NoLeakTrace st.trace ∧ QueuePredicted st) :
    NoLeakTrace (iterate cfg sortFn st).1.trace
  ∧ QueuePredicted (iterate cfg sortFn st).1 := by
  cases ht : ((st.stream.take cfg.batch_size).map fun s => s.arrival_time).getLast? with
  | none =>
    rw [iterate_indexError cfg sortFn st ht]
    exact ⟨hInv.1, fun r hr => hInv.2 r hr⟩
  | some t =>
    rw [iterate_eq cfg sortFn st t ht]
    have hfr := afterTrain_frame cfg st t
    -- invariant after the drain-and-train stage
    have hInv' : NoLeakTrace (afterTrainPair cfg st t).1.trace
        ∧ QueuePredicted (afterTrainPair cfg st t).1 := by
      constructor
      · rw [hfr.1]
        apply noLeak_append _ _ hInv.1
        intro k sids hmem sid hsid
        rcases (by split at hmem <;> simp_all :
            k = st.iterIdx
            ∧ sids = (delayed_samples st.delay_queue t).map fun r => r.sid) with ⟨hk, hsids⟩
        subst hk; subst hsids
        obtain ⟨r, hr, rfl⟩ := List.mem_map.mp hsid
        exact hInv.2 r (List.mem_of_mem_filter hr)
      · intro r hr
        rw [hfr.2.1] at hr
        rw [hfr.1, hfr.2.2.1]
        exact TPB_mono _ _ _ _ (hInv.2 r (List.mem_of_mem_filter hr))
    cases hfr2 : (afterTrainPair cfg st t).2 with
    | some e => exact hInv'
    | none =>
      cases hps : _predict_samples cfg (afterTrainPair cfg st t).1
          ((st.stream.take cfg.batch_size).map fun s => s.X)
          ((st.stream.take cfg.batch_size).map fun s => s.sid) with
      | error e => exact hInv'
      | ok pr =>
        obtain ⟨pred, hpred, hpr⟩ := ps_ok_inv _ _ _ _ _ hps
        set fr1 := (afterTrainPair cfg st t).1 with hfr1
        have hprtrace : pr.1.trace = fr1.trace
            ++ [Event.predicted st.iterIdx
                  ((st.stream.take cfg.batch_size).map fun s => s.sid)] := by
          rw [hpr]
          simp [hfr.2.2.1]
        have hprqueue : pr.1.delay_queue = fr1.delay_queue := by rw [hpr]
        have hpridx : pr.1.iterIdx = st.iterIdx := by rw [hpr]; simp [hfr.2.2.1]
        have hudq := udq_frame sortFn pr.1 (st.stream.take cfg.batch_size) pr.2
        constructor
        · simp only []
          rw [hudq.1, hprtrace]
          apply noLeak_append _ _ hInv'.1
          intro k sids hmem sid hsid
          simp at hmem
        · intro r hr
          simp only [] at hr ⊢
          rw [hudq.2.2.2.2.2] at hr
          have hr' := (hperm _).mem_iff.mp hr
          rw [hudq.1, hudq.2.1, hprtrace, hpridx, hfr.1]
          rcases List.mem_append.mp hr' with hq | hnew
          · -- a record kept from the old queue: predicted in an earlier iteration
            rw [hprqueue, hfr.2.1] at hq
            apply TPB_le _ st.iterIdx _ _ (Nat.le_succ _)
            exact TPB_mono _ _ _ _ (TPB_mono _ _ _ _
              (hInv.2 r (List.mem_of_mem_filter hq)))
          · -- a freshly enqueued record: predicted in this very iteration
            obtain ⟨s, hs, p, hp, rfl⟩ := mem_zipWith_ex _ _ _ _ hnew
            refine ⟨st.iterIdx, (st.stream.take cfg.batch_size).map fun s => s.sid,
              Nat.lt_succ_self _, ?_, ?_⟩
            · exact List.mem_append_right _ (by simp)
            · exact List.mem_map.mpr ⟨s, hs, rfl⟩

lemma drainingPhase_trace (cfg : Config) (sortFn : List Record → List Record)
    (st : LoopState) : (drainingPhase cfg sortFn st).trace = st.trace := by
  unfold drainingPhase; split <;> rfl

lemma drainingPhase_gsc (cfg : Config) (sortFn : List Record → List Record)
    (st : LoopState) :
    (drainingPhase cfg sortFn st).global_sample_count = st.global_sample_count := by
  unfold drainingPhase; split <;> rfl

lemma runLoop_no_leak (cfg : Config) (sortFn : List Record → List Record)
    (actualMax : Nat) (timeOk : Nat → Bool)
    (hperm : ∀ q, List.Perm (sortFn q) q) :
    ∀ fuel st, NoLeakTrace st.trace ∧ QueuePredicted st →
      NoLeakTrace (runLoop cfg sortFn actualMax timeOk fuel st).trace
      ∧ QueuePredicted (runLoop cfg sortFn actualMax timeOk fuel st) := by
  intro fuel
  induction fuel with
  | zero => intro st h; exact h
  | succ n ih =>
    intro st h
    rw [runLoop]
    split
    · cases hit : iterate cfg sortFn st with
    | mk st' oe =>
      have hstep := iterate_no_leak cfg sortFn st hperm h
      rw [hit] at hstep
      cases oe with
      | none => exact ih st' hstep
      | some e => exact ⟨hstep.1, fun r hr => hstep.2 r hr⟩
    · exact h

lemma pretrain_inv (cfg : Config) (sortFn : List Record → List Record)
    (models : List Model) (stream : List Sample) (st : LoopState)
    (hperm : ∀ q, List.Perm (sortFn q) q)
    (h : pretrainPhase cfg sortFn (initState models stream) = Except.ok st) :
    NoLeakTrace st.trace ∧ QueuePredicted st := by
  unfold pretrainPhase at h
  split at h
  · simp only [] at h
    split at h
    · cases h
    · split at h
      · cases h
      · rw [Except.ok.injEq] at h
        subst h
        constructor
        · intro k sids hmem sid hsid
          simp [initState] at hmem
        · intro r hr
          have : sortFn [] = [] := (hperm []).eq_nil
          simp only [initState] at hr
          rw [this] at hr
          cases hr
  · rw [Except.ok.injEq] at h
    subst h
    constructor
    · intro k sids hmem sid hsid
      simp [initState] at hmem
    · intro r hr
      cases hr

-- ------------------------------------------------------------------
-- C1: no label leakage
-- ------------------------------------------------------------------

/-- C1.  In every `_train_and_test` run (over any configuration, stream,
model set and any `sort_values` implementation obeying its permutation
contract), the event trace satisfies `NoLeakTrace`: every sample a model
is trained on during a RUNNING iteration was predicted — and its
prediction recorded in its Delay Queue row — in a strictly earlier
iteration.  Training consumes only records drained from the queue, and
records enter the queue only after `_predict_samples` filled their
`y_pred` slot, so a sample's true label never reaches `partial_fit`
before that sample was predicted. -/
theorem C1_no_label_leakage (cfg : Config) (sortFn : List Record → List Record)
    (timeOk : Nat → Bool) (models : List Model) (stream : List Sample)
    (hperm : ∀ q, List.Perm (sortFn q) q) :
    NoLeakTrace (traceOfRun (trainAndTest cfg sortFn timeOk (initState models stream))) := by
  unfold trainAndTest
  cases hp : pretrainPhase cfg sortFn (initState models stream) with
  | error e =>
    intro k sids hmem sid hsid
    simp [traceOfRun] at hmem
  | ok st =>
    simp only [traceOfRun, finishRun]
    rw [drainingPhase_trace]
    exact (runLoop_no_leak cfg sortFn
      (actual_max_samples ((initState models stream).stream.length : Int) cfg.max_samples)
      timeOk hperm (st.stream.length + 1) st
      (pretrain_inv cfg sortFn models stream st hperm hp)).1

/-- Witness for C1: a concrete two-iteration run with one model. -/
theorem C1_no_label_leakage_witness :
    (∀ q, List.Perm (sortRecords q) q)
  ∧ NoLeakTrace (traceOfRun (trainAndTest demoConfig sortRecords (fun _ => true)
      (initState [okModel] demoStream))) :=
  ⟨sortRecords_perm,
   C1_no_label_leakage demoConfig sortRecords (fun _ => true) [okModel] demoStream
     sortRecords_perm⟩

lemma iterate_gsc (cfg : Config) (sortFn : List Record → List Record) (st : LoopState) :
    ((iterate cfg sortFn st).2 = none →
      (iterate cfg sortFn st).1.global_sample_count
        = st.global_sample_count + cfg.batch_size)
  ∧ ((iterate cfg sortFn st).2 ≠ none →
      (iterate cfg sortFn st).1.global_sample_count = st.global_sample_count) := by
  cases ht : ((st.stream.take cfg.batch_size).map fun s => s.arrival_time).getLast? with
  | none =>
    rw [iterate_indexError cfg sortFn st ht]
    exact ⟨(fun h => nomatch h), fun _ => rfl⟩
  | some t =>
    rw [iterate_eq cfg sortFn st t ht]
    have hfr := afterTrain_frame cfg st t
    cases hfr2 : (afterTrainPair cfg st t).2 with
    | some e =>
      exact ⟨(fun h => nomatch h), fun _ => hfr.2.2.2.1⟩
    | none =>
      cases hps : _predict_samples cfg (afterTrainPair cfg st t).1
          ((st.stream.take cfg.batch_size).map fun s => s.X)
          ((st.stream.take cfg.batch_size).map fun s => s.sid) with
      | error e =>
        exact ⟨(fun h => nomatch h), fun _ => hfr.2.2.2.1⟩
      | ok pr =>
        obtain ⟨pred, hpred, hpr⟩ := ps_ok_inv _ _ _ _ _ hps
        have hudq := udq_frame sortFn pr.1 (st.stream.take cfg.batch_size) pr.2
        constructor
        · intro _
          simp only []
          rw [hudq.2.2.1, hpr]
          simp [hfr.2.2.2.1]
        · intro h
          exact absurd rfl h

lemma runLoop_gsc_bound (cfg : Config) (sortFn : List Record → List Record)
    (actualMax : Nat) (timeOk : Nat → Bool) :
    ∀ fuel st, st.global_sample_count < actualMax + cfg.batch_size →
      (runLoop cfg sortFn actualMax timeOk fuel st).global_sample_count
        < actualMax + cfg.batch_size := by
  intro fuel
  induction fuel with
  | zero => intro st h; exact h
  | succ n ih =>
    intro st h
    rw [runLoop]
    split
    · rename_i hg
      have hglt : st.global_sample_count < actualMax := by
        unfold loopGuard at hg
        simp only [Bool.and_eq_true, decide_eq_true_eq] at hg
        exact hg.1.1
      cases hit : iterate cfg sortFn st with
      | mk st' oe =>
        have hstep := iterate_gsc cfg sortFn st
        rw [hit] at hstep
        cases oe with
        | none =>
          apply ih
          have := hstep.1 rfl
          simp only [] at this
          omega
        | some e =>
          have := hstep.2 (by simp)
          simp only [] at this
          show st'.global_sample_count < actualMax + cfg.batch_size
          omega
    · exact h

lemma pretrain_gsc (cfg : Config) (sortFn : List Record → List Record)
    (models : List Model) (stream : List Sample) (st : LoopState)
    (h : pretrainPhase cfg sortFn (initState models stream) = Except.ok st) :
    st.global_sample_count ≤ cfg.pretrain_size := by
  unfold pretrainPhase at h
  split at h
  · simp only [] at h
    split at h
    · cases h
    · split at h
      · cases h
      · rw [Except.ok.injEq] at h
        subst h
        simp [initState]
  · rw [Except.ok.injEq] at h
    subst h
    simp [initState]

-- ------------------------------------------------------------------
-- C5: sample-count budget
-- ------------------------------------------------------------------

/-- C5 counterexample.  With `pretrain_size = 5`, `max_samples = 2`,
`batch_size = 1` and a six-sample stream, `actual_max_samples = 2` and
the final `global_sample_count` of the run is 5 — exceeding
`actual_max_samples + batch_size - 1 = 2`, because pretraining bumps the
counter by `pretrain_size` before the loop guard is ever consulted.  The
claim's whole-run bound is therefore false as stated. -/
theorem C5_budget_counterexample :
    finalGscOfRun (trainAndTest cexConfig sortRecords (fun _ => true)
        (initState [okModel] demoStream)) = some 5
  ∧ actual_max_samples ((demoStream.length : Int)) cexConfig.max_samples
      + cexConfig.batch_size - 1 = 2
  ∧ ¬ (5 ≤ 2) :=
  ⟨by decide, by decide, by decide⟩

/-- C5 amended.  The per-iteration half of the claim holds unchanged:
every RUNNING iteration whose body completes (in particular, whose
prediction step succeeds) advances `global_sample_count` by exactly
`batch_size`.  The whole-run bound holds under the proviso the
counterexample forces: the pretraining block must not already exceed
the budget (`pretrain_size ≤ actual_max_samples`); the loop only starts
an iteration while `global_sample_count < actual_max_samples`, so the
final count then never exceeds `actual_max_samples + batch_size - 1`. -/
theorem C5_sample_budget_amended (cfg : Config) (sortFn : List Record → List Record)
    (timeOk : Nat → Bool) (models : List Model) (stream : List Sample)
    (hb : 1 ≤ cfg.batch_size)
    (hp : cfg.pretrain_size ≤ actual_max_samples (stream.length : Int) cfg.max_samples) :
    (∀ st : LoopState, (iterate cfg sortFn st).2 = none →
        (iterate cfg sortFn st).1.global_sample_count
          = st.global_sample_count + cfg.batch_size)
  ∧ (∀ g, finalGscOfRun (trainAndTest cfg sortFn timeOk (initState models stream))
        = some g →
      g ≤ actual_max_samples (stream.length : Int) cfg.max_samples
          + cfg.batch_size - 1) := by
  constructor
  · intro st hnone
    exact (iterate_gsc cfg sortFn st).1 hnone
  · intro g hg
    unfold trainAndTest at hg
    cases hpre : pretrainPhase cfg sortFn (initState models stream) with
    | error e => rw [hpre] at hg; cases hg
    | ok st =>
      rw [hpre] at hg
      simp only [finalGscOfRun, finishRun, Option.some.injEq] at hg
      rw [drainingPhase_gsc] at hg
      have hnorm : (initState models stream).stream = stream := rfl
      rw [hnorm] at hg
      have hinit : st.global_sample_count
          < actual_max_samples (stream.length : Int) cfg.max_samples + cfg.batch_size := by
        have := pretrain_gsc cfg sortFn models stream st hpre
        omega
      have hbound := runLoop_gsc_bound cfg sortFn
        (actual_max_samples (stream.length : Int) cfg.max_samples)
        timeOk (st.stream.length + 1) st hinit
      omega

/-- Witness for the amended C5 on the demo run. -/
theorem C5_sample_budget_amended_witness :
    (1 ≤ demoConfig.batch_size)
  ∧ (demoConfig.pretrain_size
      ≤ actual_max_samples (demoStream.length : Int) demoConfig.max_samples)
  ∧ ((iterate demoConfig sortRecords (initState [okModel] demoStream)).2 = none →
      (iterate demoConfig sortRecords (initState [okModel] demoStream)).1.global_sample_count
        = (initState [okModel] demoStream).global_sample_count + demoConfig.batch_size)
  ∧ (∀ g, finalGscOfRun (trainAndTest demoConfig sortRecords (fun _ => true)
        (initState [okModel] demoStream)) = some g →
      g ≤ actual_max_samples (demoStream.length : Int) demoConfig.max_samples
          + demoConfig.batch_size - 1) :=
  ⟨by decide, by decide,
   (C5_sample_budget_amended demoConfig sortRecords (fun _ => true) [okModel] demoStream
      (by decide) (by decide)).1 (initState [okModel] demoStream),
   (C5_sample_budget_amended demoConfig sortRecords (fun _ => true) [okModel] demoStream
      (by decide) (by decide)).2⟩

-- ------------------------------------------------------------------
-- C6: watermark assignment
-- ------------------------------------------------------------------

/-- C6.  After a PRETRAIN phase that runs (`pretrain_size > 0`),
`current_timestamp` is the arrival time of the last pretraining sample
and the delay queue is empty.  And in every RUNNING iteration,
`current_timestamp` is set to the arrival time of the last sample of
the freshly pulled batch before anything else happens: the queue is
drained against exactly that watermark (the `trained` event of the
iteration carries precisely the records of the old queue whose
`available_time ≤ t`), and prediction of the new batch follows the
drain-fed training. -/
theorem C6_watermark_assignment (cfg : Config) (sortFn : List Record → List Record)
    (hperm : ∀ q, List.Perm (sortFn q) q) :
    (∀ st st', 0 < cfg.pretrain_size →
        pretrainPhase cfg sortFn st = Except.ok st' →
        ((st.stream.take cfg.pretrain_size).map fun s => s.arrival_time).getLast?
            = some st'.current_timestamp
        ∧ st'.delay_queue = [])
  ∧ (∀ st t,
      ((st.stream.take cfg.batch_size).map fun s => s.arrival_time).getLast? = some t →
        (iterate cfg sortFn st).1.current_timestamp = t
        ∧ ((iterate cfg sortFn st).2 = none →
            (iterate cfg sortFn st).1.trace
              = (st.trace
                  ++ (if 0 < (delayed_samples st.delay_queue t).length
                      then [Event.trained st.iterIdx
                              ((delayed_samples st.delay_queue t).map fun r => r.sid)]
                      else []))
                ++ [Event.predicted st.iterIdx
                      ((st.stream.take cfg.batch_size).map fun s => s.sid)])) := by
  constructor
  · intro st st' hpre h
    unfold pretrainPhase at h
    rw [if_pos hpre] at h
    simp only [] at h
    split at h
    · cases h
    · split at h
      · cases h
      · rename_i t hlast
        rw [Except.ok.injEq] at h
        subst h
        exact ⟨hlast, (hperm []).eq_nil⟩
  · intro st t ht
    rw [iterate_eq cfg sortFn st t ht]
    have hfr := afterTrain_frame cfg st t
    cases hfr2 : (afterTrainPair cfg st t).2 with
    | some e =>
      exact ⟨hfr.2.2.2.2.2.1, (fun h => nomatch h)⟩
    | none =>
      cases hps : _predict_samples cfg (afterTrainPair cfg st t).1
          ((st.stream.take cfg.batch_size).map fun s => s.X)
          ((st.stream.take cfg.batch_size).map fun s => s.sid) with
      | error e =>
        exact ⟨hfr.2.2.2.2.2.1, (fun h => nomatch h)⟩
      | ok pr =>
        obtain ⟨pred, hpred, hpr⟩ := ps_ok_inv _ _ _ _ _ hps
        have hudq := udq_frame sortFn pr.1 (st.stream.take cfg.batch_size) pr.2
        constructor
        · simp only []
          rw [hudq.2.2.2.1, hpr]
          simp [hfr.2.2.2.2.2.1]
        · intro _
          simp only []
          rw [hudq.1, hpr]
          simp only []
          rw [hfr.1, hfr.2.2.1]

/-- Witness for C6 on the demo run: the pretraining block is samples 0
and 1 (last arrival time 1), and the first RUNNING iteration pulls
sample 0 when started from the fresh state (watermark 0, empty queue,
so no `trained` event). -/
theorem C6_watermark_assignment_witness :
    (0 < demoConfig.pretrain_size)
  ∧ ((((initState [okModel] demoStream).stream.take demoConfig.pretrain_size).map
        fun s => s.arrival_time).getLast? = some pretrainOutDemo.current_timestamp
      ∧ pretrainOutDemo.delay_queue = [])
  ∧ ((iterate demoConfig sortRecords (initState [okModel] demoStream)).1.current_timestamp
        = 0
      ∧ ((iterate demoConfig sortRecords (initState [okModel] demoStream)).2 = none →
          (iterate demoConfig sortRecords (initState [okModel] demoStream)).1.trace
            = ((initState [okModel] demoStream).trace
                ++ (if 0 < (delayed_samples (initState [okModel] demoStream).delay_queue 0).length
                    then [Event.trained (initState [okModel] demoStream).iterIdx
                            ((delayed_samples (initState [okModel] demoStream).delay_queue 0).map
                              fun r => r.sid)]
                    else []))
              ++ [Event.predicted (initState [okModel] demoStream).iterIdx
                    (((initState [okModel] demoStream).stream.take demoConfig.batch_size).map
                      fun s => s.sid)])) :=
  ⟨by decide,
   (C6_watermark_assignment demoConfig sortRecords sortRecords_perm).1
     (initState [okModel] demoStream) pretrainOutDemo (by decide) rfl,
   (C6_watermark_assignment demoConfig sortRecords sortRecords_perm).2
     (initState [okModel] demoStream) 0 rfl⟩

-- ------------------------------------------------------------------
-- C7 / C8: loop-level error handling
-- ------------------------------------------------------------------

lemma runLoop_break (cfg : Config) (sortFn : List Record → List Record)
    (actualMax : Nat) (timeOk : Nat → Bool) (fuel : Nat) (st : LoopState) (e : Exc)
    (hg : loopGuard actualMax timeOk st = true)
    (hit : (iterate cfg sortFn st).2 = some e) :
    runLoop cfg sortFn actualMax timeOk (fuel + 1) st
      = { (iterate cfg sortFn st).1 with terminalError := some e } := by
  rw [runLoop, if_pos hg]
  have hpair : iterate cfg sortFn st = ((iterate cfg sortFn st).1, some e) := by
    rw [← hit]
  rw [hpair]

/-- C7.  Any exception raised inside a RUNNING iteration is caught at
the loop level: the loop breaks with the mutations made so far and the
exception recorded, instead of the exception propagating.  The
finalization then still happens: the models at the break point are
returned, the file buffer is flushed, the summary is emitted exactly
when some tracked metric differs from the data-points mode, the stream
restart follows the configuration, and — whenever pretraining
succeeded — `_train_and_test` returns normally (`Except.ok`), never
re-raising the loop error. -/
theorem C7_graceful_abort (cfg : Config) (sortFn : List Record → List Record)
    (actualMax : Nat) (timeOk : Nat → Bool) (fuel : Nat) (st : LoopState) (e : Exc)
    (hg : loopGuard actualMax timeOk st = true)
    (hit : (iterate cfg sortFn st).2 = some e) :
    runLoop cfg sortFn actualMax timeOk (fuel + 1) st
      = { (iterate cfg sortFn st).1 with terminalError := some e }
  ∧ (finishRun cfg sortFn (runLoop cfg sortFn actualMax timeOk (fuel + 1) st)).models
      = (iterate cfg sortFn st).1.models
  ∧ (finishRun cfg sortFn (runLoop cfg sortFn actualMax timeOk (fuel + 1) st)).fileFlushed
      = true
  ∧ (finishRun cfg sortFn (runLoop cfg sortFn actualMax timeOk (fuel + 1) st)).summaryEmitted
      = cfg.metrics.any (fun m => m != DATA_POINTS)
  ∧ (finishRun cfg sortFn (runLoop cfg sortFn actualMax timeOk (fuel + 1) st)).streamRestarted
      = cfg.restart_stream
  ∧ (finishRun cfg sortFn (runLoop cfg sortFn actualMax timeOk (fuel + 1) st)).terminalError
      = some e
  ∧ (∀ st0 stP, pretrainPhase cfg sortFn st0 = Except.ok stP →
      ∃ out, trainAndTest cfg sortFn timeOk st0 = Except.ok out) := by
  have hb := runLoop_break cfg sortFn actualMax timeOk fuel st e hg hit
  refine ⟨hb, ?_, rfl, rfl, rfl, ?_, ?_⟩
  · rw [hb]
    show (drainingPhase cfg sortFn _).models = _
    rw [drainingPhase_models]
  · rw [hb]
    show (drainingPhase cfg sortFn _).terminalError = _
    rw [drainingPhase_terminalError]
  · intro st0 stP hpre
    unfold trainAndTest
    rw [hpre]
    exact ⟨_, rfl⟩

/-- Witness for C7: a run whose only model returns a non-sequence from
`predict`, breaking the first RUNNING iteration. -/
theorem C7_graceful_abort_witness :
    loopGuard 3 (fun _ => true) errState = true
  ∧ (iterate demoConfig sortRecords errState).2 = some (Exc.typeError "bad")
  ∧ runLoop demoConfig sortRecords 3 (fun _ => true) 1 errState
      = { (iterate demoConfig sortRecords errState).1 with
          terminalError := some (Exc.typeError "bad") }
  ∧ (finishRun demoConfig sortRecords
        (runLoop demoConfig sortRecords 3 (fun _ => true) 1 errState)).models
      = (iterate demoConfig sortRecords errState).1.models
  ∧ (finishRun demoConfig sortRecords
        (runLoop demoConfig sortRecords 3 (fun _ => true) 1 errState)).fileFlushed = true
  ∧ (finishRun demoConfig sortRecords
        (runLoop demoConfig sortRecords 3 (fun _ => true) 1 errState)).summaryEmitted
      = demoConfig.metrics.any (fun m => m != DATA_POINTS)
  ∧ (finishRun demoConfig sortRecords
        (runLoop demoConfig sortRecords 3 (fun _ => true) 1 errState)).streamRestarted
      = demoConfig.restart_stream
  ∧ (finishRun demoConfig sortRecords
        (runLoop demoConfig sortRecords 3 (fun _ => true) 1 errState)).terminalError
      = some (Exc.typeError "bad")
  ∧ (∀ st0 stP, pretrainPhase demoConfig sortRecords st0 = Except.ok stP →
      ∃ out, trainAndTest demoConfig sortRecords (fun _ => true) st0 = Except.ok out) :=
  ⟨rfl, rfl,
   (C7_graceful_abort demoConfig sortRecords 3 (fun _ => true) 0 errState
      (Exc.typeError "bad") rfl rfl).1,
   (C7_graceful_abort demoConfig sortRecords 3 (fun _ => true) 0 errState
      (Exc.typeError "bad") rfl rfl).2⟩

lemma isValidPred_exists (o : PredOutcome) (h : isValidPred o = true) :
    ∃ ys, o = PredOutcome.valid ys := by
  cases o with
  | valid ys => exact ⟨ys, rfl⟩
  | notSequence => simp [isValidPred] at h
  | raises e => simp [isValidPred] at h

lemma predictAll_at_invalid :
    ∀ (ms : List Model) (X : List Int) (i : Nat) (hi : i < ms.length),
    ((ms.take i).all fun m => isValidPred (m.predictFn X)) = true →
    (ms.get ⟨i, hi⟩).predictFn X = PredOutcome.notSequence →
    predictAll ms X = Except.error (Exc.typeError (ms.get ⟨i, hi⟩).name) := by
  intro ms
  induction ms with
  | nil =>
    intro X i hi
    exact absurd hi (by simp)
  | cons m rest ih =>
    intro X i hi hprev hbad
    cases i with
    | zero =>
      unfold predictAll
      rw [show ((m :: rest).get ⟨0, hi⟩) = m from rfl] at hbad
      rw [hbad]
      rfl
    | succ i' =>
      have hi' : i' < rest.length := by simpa using hi
      have hsplit : isValidPred (m.predictFn X) = true
          ∧ ((rest.take i').all fun m' => isValidPred (m'.predictFn X)) = true := by
        simpa [List.all_cons, Bool.and_eq_true] using hprev
      obtain ⟨ys, hys⟩ := isValidPred_exists _ hsplit.1
      unfold predictAll
      rw [hys, ih X i' hi' hsplit.2 hbad]
      rfl

/-- C8.  When a model's `predict` output is not a valid per-sample
sequence (every earlier model having predicted normally), the
prediction step raises the invalid-prediction `TypeError` naming that
model; such an error breaking a RUNNING iteration is caught by the
loop, recorded as the run's terminal state, and survives finalization —
it is never re-raised to the caller. -/
theorem C8_prediction_shape_error (cfg : Config) (sortFn : List Record → List Record)
    (st : LoopState) (X : List Int) (sids : List Nat) (i : Nat)
    (hi : i < st.models.length)
    (hprev : ((st.models.take i).all fun m => isValidPred (m.predictFn X)) = true)
    (hbad : (st.models.get ⟨i, hi⟩).predictFn X = PredOutcome.notSequence) :
    _predict_samples cfg st X sids
      = Except.error (Exc.typeError ((st.models.get ⟨i, hi⟩).name))
  ∧ (∀ actualMax timeOk fuel st2 nm,
      loopGuard actualMax timeOk st2 = true →
      (iterate cfg sortFn st2).2 = some (Exc.typeError nm) →
        (runLoop cfg sortFn actualMax timeOk (fuel + 1) st2).terminalError
            = some (Exc.typeError nm)
        ∧ (finishRun cfg sortFn
             (runLoop cfg sortFn actualMax timeOk (fuel + 1) st2)).terminalError
            = some (Exc.typeError nm)) := by
  constructor
  · exact ps_err cfg st X sids _ (predictAll_at_invalid st.models X i hi hprev hbad)
  · intro actualMax timeOk fuel st2 nm hg hit
    have hb := runLoop_break cfg sortFn actualMax timeOk fuel st2 _ hg hit
    rw [hb]
    constructor
    · rfl
    · show (drainingPhase cfg sortFn _).terminalError = _
      rw [drainingPhase_terminalError]

/-- Witness for C8: model 1 of the two-model state returns a
non-sequence on the first batch; the loop surfaces the error. -/
theorem C8_prediction_shape_error_witness :
    (([okModel, badPredictModel].take 1).all
        fun m => isValidPred (m.predictFn [0])) = true
  ∧ _predict_samples demoConfig twoModelState [0] [0]
      = Except.error (Exc.typeError "bad")
  ∧ (loopGuard 3 (fun _ => true) errState = true
      ∧ (iterate demoConfig sortRecords errState).2 = some (Exc.typeError "bad")
      ∧ (runLoop demoConfig sortRecords 3 (fun _ => true) 1 errState).terminalError
          = some (Exc.typeError "bad")
      ∧ (finishRun demoConfig sortRecords
            (runLoop demoConfig sortRecords 3 (fun _ => true) 1 errState)).terminalError
          = some (Exc.typeError "bad")) :=
  ⟨rfl,
   (C8_prediction_shape_error demoConfig sortRecords twoModelState [0] [0] 1
      (by decide) rfl rfl).1,
   rfl, rfl,
   (C8_prediction_shape_error demoConfig sortRecords twoModelState [0] [0] 1
      (by decide) rfl rfl).2 3 (fun _ => true) 0 errState "bad" rfl rfl⟩

end SkMF
